import Mathlib

set_option maxRecDepth 8000

/-!
Shallow embedding of `iolib.py` (`BinaryStreamWriter`): a binary stream writer
over an in-memory byte sink.  Bytes are `Nat` values below 256, a Python `str`
is a list of Unicode code points (`List Nat`), machine integers are `Int` with
explicit range checks and `% 2 ^ (8 * width)` reduction as performed by
`struct.pack`, and fallible operations return `Except PyError`.
-/

def LITTLE_ENDIAN : Int := 0
def BIG_ENDIAN : Int := 1
def SEEK_BEGINNING : Int := 0
def SEEK_CURRENT : Int := 1
def SEEK_END : Int := 2

/-- The runtime errors the embedded operations can raise. -/
inductive PyError where
  | structError
  | unicodeEncodeError
  | valueErrorClosedFile
  | valueErrorBadWhence
  | osErrorNegativeSeek
  | attributeErrorNoneType
  deriving DecidableEq, Repr

/-- A writable, seekable in-memory byte sink: the model of the file object
returned by Python `open(path, "wb")`. -/
structure FileHandle where
  data : List Nat
  pos : Nat
  closed : Bool
  deriving DecidableEq, Repr

/-- Splice `buf` into `data` at position `pos`, zero-filling any gap between
the end of `data` and `pos` (file-write semantics). -/
def writeAt (data : List Nat) (pos : Nat) (buf : List Nat) : List Nat :=
  data.take pos ++ List.replicate (pos - data.length) 0 ++ buf ++
    data.drop (pos + buf.length)

/-- `fp.write(buf)`: fails on a closed file, otherwise writes `buf` at the
current position and returns the number of bytes written (`len(buf)`). -/
def FileHandle.write (f : FileHandle) (buf : List Nat) :
    Except PyError (FileHandle × Nat) :=
  if f.closed then .error .valueErrorClosedFile
  else .ok ({ f with data := writeAt f.data f.pos buf, pos := f.pos + buf.length },
    buf.length)

/-- `fp.seek(offset, whence)`: fails on a closed file, repositions the cursor
relative to beginning / current position / end, returns the new absolute
position; a negative resulting position is an error. -/
def FileHandle.seek (f : FileHandle) (offset : Int) (whence : Int) :
    Except PyError (FileHandle × Int) :=
  if f.closed then .error .valueErrorClosedFile
  else if whence = SEEK_BEGINNING ∨ whence = SEEK_CURRENT ∨ whence = SEEK_END then
    let p : Int :=
      if whence = SEEK_BEGINNING then offset
      else if whence = SEEK_CURRENT then (f.pos : Int) + offset
      else (f.data.length : Int) + offset
    if p < 0 then .error .osErrorNegativeSeek
    else .ok ({ f with pos := p.toNat }, p)
  else .error .valueErrorBadWhence

/-- `fp.close()`: marks the handle closed (idempotent in Python). -/
def FileHandle.closeHandle (f : FileHandle) : FileHandle :=
  { f with closed := true }

/-- The `struct` format codes used by `iolib.py`: `b B h H i I l L`. -/
inductive FmtCode where
  | b
  | B
  | h
  | H
  | i
  | I
  | l
  | L
  deriving DecidableEq, Repr

/-- Standard (prefix-selected) byte width of each format code.  With an
explicit `<` or `>` byte-order prefix, `struct` uses standard sizes, so
`l`/`L` are 4 bytes regardless of the platform's native `long`. -/
def fmtWidth : FmtCode → Nat
  | .b => 1
  | .B => 1
  | .h => 2
  | .H => 2
  | .i => 4
  | .I => 4
  | .l => 4
  | .L => 4

/-- Whether the format code is signed. -/
def fmtSigned : FmtCode → Bool
  | .b => true
  | .B => false
  | .h => true
  | .H => false
  | .i => true
  | .I => false
  | .l => true
  | .L => false

/-- Lower bound of the representable range checked by `struct.pack`. -/
def packLo (code : FmtCode) : Int :=
  if fmtSigned code then -((2 : Int) ^ (8 * fmtWidth code - 1)) else 0

/-- Strict upper bound of the representable range checked by `struct.pack`. -/
def packHi (code : FmtCode) : Int :=
  if fmtSigned code then (2 : Int) ^ (8 * fmtWidth code - 1)
  else (2 : Int) ^ (8 * fmtWidth code)

/-- Little-endian byte decomposition: `w` bytes of the value `v`. -/
def leBytes : Nat → Nat → List Nat
  | 0, _ => []
  | w + 1, v => v % 256 :: leBytes w (v / 256)

/-- `struct.pack("{endian}{code}", n)`: range-check `n`, take its
two's-complement bit pattern, lay the bytes out least-significant first for
`<` and most-significant first for `>`. -/
def pack (endianChar : Char) (code : FmtCode) (n : Int) :
    Except PyError (List Nat) :=
  if packLo code ≤ n ∧ n < packHi code then
    let le := leBytes (fmtWidth code) (n % (2 : Int) ^ (8 * fmtWidth code)).toNat
    .ok (if endianChar = '<' then le else le.reverse)
  else .error .structError

/-- `s.encode("ascii")`: the identity on the code points when all are ≤ 127,
a hard `UnicodeEncodeError` otherwise. -/
def encodeAscii (s : List Nat) : Except PyError (List Nat) :=
  if s.all fun c => decide (c ≤ 127) then .ok s else .error .unicodeEncodeError

/-- UTF-8 byte sequence of one code point. -/
def utf8EncodeChar (c : Nat) : List Nat :=
  if c < 0x80 then [c]
  else if c < 0x800 then [0xC0 + c / 64, 0x80 + c % 64]
  else if c < 0x10000 then [0xE0 + c / 4096, 0x80 + c / 64 % 64, 0x80 + c % 64]
  else [0xF0 + c / 262144, 0x80 + c / 4096 % 64, 0x80 + c / 64 % 64, 0x80 + c % 64]

/-- UTF-8 byte sequence of a list of code points. -/
def utf8Bytes : List Nat → List Nat
  | [] => []
  | c :: cs => utf8EncodeChar c ++ utf8Bytes cs

/-- `s.encode("utf-8")`: fails on lone surrogates, otherwise the UTF-8 bytes. -/
def encodeUtf8 (s : List Nat) : Except PyError (List Nat) :=
  if s.all fun c => decide (c < 0xD800 ∨ 0xDFFF < c) then .ok (utf8Bytes s)
  else .error .unicodeEncodeError

/-- The writer: target path, nullable sink handle, endianness character. -/
structure BinaryStreamWriter where
  output_path : String
  fp : Option FileHandle
  endian : Char
  deriving DecidableEq, Repr

/-- `__init__(output_path, endian)`: stores the path, leaves the handle
`None`, and maps the endian argument to `"<"` when it equals
`LITTLE_ENDIAN` and to `">"` otherwise — with no further validation. -/
def BinaryStreamWriter.init (output_path : String) (endian : Int) :
    BinaryStreamWriter :=
  { output_path := output_path, fp := none,
    endian := if endian = LITTLE_ENDIAN then '<' else '>' }

/-- `self.__fp.write(buf)` as used by every write method: `AttributeError`
when the handle is `None`, otherwise the sink write. -/
def BinaryStreamWriter.fpWrite (w : BinaryStreamWriter) (buf : List Nat) :
    Except PyError (BinaryStreamWriter × Nat) :=
  match w.fp with
  | none => .error .attributeErrorNoneType
  | some f =>
    match f.write buf with
    | .error err => .error err
    | .ok (f2, c) => .ok ({ w with fp := some f2 }, c)

/-- `write_byte`: `pack("{endian}b", n)` then `self.__fp.write(buf)`. -/
def BinaryStreamWriter.write_byte (w : BinaryStreamWriter) (n : Int) :
    Except PyError (BinaryStreamWriter × Nat) :=
  match pack w.endian .b n with
  | .error err => .error err
  | .ok buf => w.fpWrite buf

/-- `write_ubyte`: `pack("{endian}B", n)` then `self.__fp.write(buf)`. -/
def BinaryStreamWriter.write_ubyte (w : BinaryStreamWriter) (n : Int) :
    Except PyError (BinaryStreamWriter × Nat) :=
  match pack w.endian .B n with
  | .error err => .error err
  | .ok buf => w.fpWrite buf

/-- `write_short`: `pack("{endian}h", n)` then `self.__fp.write(buf)`. -/
def BinaryStreamWriter.write_short (w : BinaryStreamWriter) (n : Int) :
    Except PyError (BinaryStreamWriter × Nat) :=
  match pack w.endian .h n with
  | .error err => .error err
  | .ok buf => w.fpWrite buf

/-- `write_ushort`: `pack("{endian}H", n)` then `self.__fp.write(buf)`. -/
def BinaryStreamWriter.write_ushort (w : BinaryStreamWriter) (n : Int) :
    Except PyError (BinaryStreamWriter × Nat) :=
  match pack w.endian .H n with
  | .error err => .error err
  | .ok buf => w.fpWrite buf

/-- `write_int`: `pack("{endian}i", n)` then `self.__fp.write(buf)`. -/
def BinaryStreamWriter.write_int (w : BinaryStreamWriter) (n : Int) :
    Except PyError (BinaryStreamWriter × Nat) :=
  match pack w.endian .i n with
  | .error err => .error err
  | .ok buf => w.fpWrite buf

/-- `write_uint`: `pack("{endian}I", n)` then `self.__fp.write(buf)`. -/
def BinaryStreamWriter.write_uint (w : BinaryStreamWriter) (n : Int) :
    Except PyError (BinaryStreamWriter × Nat) :=
  match pack w.endian .I n with
  | .error err => .error err
  | .ok buf => w.fpWrite buf

/-- `write_long`: `pack("{endian}l", n)` then `self.__fp.write(buf)`. -/
def BinaryStreamWriter.write_long (w : BinaryStreamWriter) (n : Int) :
    Except PyError (BinaryStreamWriter × Nat) :=
  match pack w.endian .l n with
  | .error err => .error err
  | .ok buf => w.fpWrite buf

/-- `write_ulong`: `pack("{endian}L", n)` then `self.__fp.write(buf)`. -/
def BinaryStreamWriter.write_ulong (w : BinaryStreamWriter) (n : Int) :
    Except PyError (BinaryStreamWriter × Nat) :=
  match pack w.endian .L n with
  | .error err => .error err
  | .ok buf => w.fpWrite buf

/-- `write_ascii_string(s)`: `self.__fp.write(s.encode("ascii"))`; the handle
lookup happens before the encode, the write after it. -/
def BinaryStreamWriter.write_ascii_string (w : BinaryStreamWriter)
    (s : List Nat) : Except PyError (BinaryStreamWriter × Nat) :=
  match w.fp with
  | none => .error .attributeErrorNoneType
  | some _ =>
    match encodeAscii s with
    | .error err => .error err
    | .ok b => w.fpWrite b

/-- `write_ascii_nt_string(s)`: `self.__fp.write(s.encode("ascii") + bytes(1))`
— the encoded payload followed by one zero byte. -/
def BinaryStreamWriter.write_ascii_nt_string (w : BinaryStreamWriter)
    (s : List Nat) : Except PyError (BinaryStreamWriter × Nat) :=
  match w.fp with
  | none => .error .attributeErrorNoneType
  | some _ =>
    match encodeAscii s with
    | .error err => .error err
    | .ok b => w.fpWrite (b ++ [0])

/-- `write_utf8_string(s)`: `self.__fp.write(s.encode("utf-8"))`. -/
def BinaryStreamWriter.write_utf8_string (w : BinaryStreamWriter)
    (s : List Nat) : Except PyError (BinaryStreamWriter × Nat) :=
  match w.fp with
  | none => .error .attributeErrorNoneType
  | some _ =>
    match encodeUtf8 s with
    | .error err => .error err
    | .ok b => w.fpWrite b

/-- `write_utf8_nt_string(s)`: `self.__fp.write(s.encode("utf-8") + bytes(1))`. -/
def BinaryStreamWriter.write_utf8_nt_string (w : BinaryStreamWriter)
    (s : List Nat) : Except PyError (BinaryStreamWriter × Nat) :=
  match w.fp with
  | none => .error .attributeErrorNoneType
  | some _ =>
    match encodeUtf8 s with
    | .error err => .error err
    | .ok b => w.fpWrite (b ++ [0])

/-- `write(b)`: `self.__fp.write(b)` verbatim. -/
def BinaryStreamWriter.write (w : BinaryStreamWriter) (b : List Nat) :
    Except PyError (BinaryStreamWriter × Nat) :=
  w.fpWrite b

/-- `open()`: `self.__fp = open(self.__output_path, "wb")` — acquires a fresh
truncated sink and returns the writer itself. -/
def BinaryStreamWriter.open_stream (w : BinaryStreamWriter) :
    BinaryStreamWriter :=
  { w with fp := some { data := [], pos := 0, closed := false } }

/-- `close()`: `self.__fp.close()`.  The handle is closed but the `fp` field
is NOT reset to `None`. -/
def BinaryStreamWriter.close (w : BinaryStreamWriter) :
    Except PyError BinaryStreamWriter :=
  match w.fp with
  | none => .error .attributeErrorNoneType
  | some f => .ok { w with fp := some f.closeHandle }

/-- `seek(offset, whence)`: `self.__fp.seek(offset, whence)`. -/
def BinaryStreamWriter.seek (w : BinaryStreamWriter) (offset : Int)
    (whence : Int) : Except PyError (BinaryStreamWriter × Int) :=
  match w.fp with
  | none => .error .attributeErrorNoneType
  | some f =>
    match f.seek offset whence with
    | .error err => .error err
    | .ok (f2, p) => .ok ({ w with fp := some f2 }, p)

/-- `skip(count)`: `self.__fp.seek(count, SEEK_CURRENT)`. -/
def BinaryStreamWriter.skip (w : BinaryStreamWriter) (count : Int) :
    Except PyError (BinaryStreamWriter × Int) :=
  match w.fp with
  | none => .error .attributeErrorNoneType
  | some f =>
    match f.seek count SEEK_CURRENT with
    | .error err => .error err
    | .ok (f2, p) => .ok ({ w with fp := some f2 }, p)

/-- Contents of the writer's sink, when a handle is present. -/
def fileData (w : BinaryStreamWriter) : Option (List Nat) :=
  w.fp.map FileHandle.data

/-- A writer constructed with endianness `e` and then opened on an empty sink. -/
def freshWriter (e : Int) : BinaryStreamWriter :=
  (BinaryStreamWriter.init "output.bin" e).open_stream

/-- Dispatch from a format code to the corresponding numeric write method. -/
def numWrite : FmtCode → BinaryStreamWriter → Int →
    Except PyError (BinaryStreamWriter × Nat)
  | .b => BinaryStreamWriter.write_byte
  | .B => BinaryStreamWriter.write_ubyte
  | .h => BinaryStreamWriter.write_short
  | .H => BinaryStreamWriter.write_ushort
  | .i => BinaryStreamWriter.write_int
  | .I => BinaryStreamWriter.write_uint
  | .l => BinaryStreamWriter.write_long
  | .L => BinaryStreamWriter.write_ulong

/-- Value of a little-endian byte list. -/
def leValue : List Nat → Nat
  | [] => 0
  | byte :: bs => byte + 256 * leValue bs

/-- Independent decoder: reassemble the integer from bytes produced with
endianness setting `e`, width and signedness of `code` (two's complement). -/
def decode (e : Int) (code : FmtCode) (bs : List Nat) : Int :=
  let u := leValue (if e = LITTLE_ENDIAN then bs else bs.reverse)
  if fmtSigned code then
    if 2 ^ (8 * fmtWidth code - 1) ≤ u then
      (u : Int) - (2 : Int) ^ (8 * fmtWidth code)
    else (u : Int)
  else (u : Int)

/-- The representable range `struct.pack` accepts for `code`. -/
abbrev inRangeP (code : FmtCode) (n : Int) : Prop :=
  packLo code ≤ n ∧ n < packHi code

/-- Observable part of a write result: the sink contents and the returned
byte count (ignores the path and endianness fields). -/
def obsResult : Except PyError (BinaryStreamWriter × Nat) →
    Except PyError (Option (List Nat) × Nat)
  | .error err => .error err
  | .ok (w, c) => .ok (fileData w, c)

/-- The code points of the string in the spec example: c a f é. -/
def cafe : List Nat := [0x63, 0x61, 0x66, 0xE9]

/-! ## Helper lemmas -/

theorem leBytes_length (w : Nat) : ∀ v : Nat, (leBytes w v).length = w := by
  induction w with
  | zero => intro v; rfl
  | succ w ih => intro v; simp [leBytes, ih]

theorem leValue_leBytes (w : Nat) :
    ∀ v : Nat, v < 2 ^ (8 * w) → leValue (leBytes w v) = v := by
  induction w with
  | zero =>
    intro v hv
    simp only [Nat.mul_zero, pow_zero, Nat.lt_one_iff] at hv
    subst hv
    rfl
  | succ w ih =>
    intro v hv
    have hsplit : 2 ^ (8 * (w + 1)) = 256 * 2 ^ (8 * w) := by
      rw [show 8 * (w + 1) = 8 + 8 * w by ring, pow_add]
      norm_num
    have hv' : v / 256 < 2 ^ (8 * w) := by
      apply Nat.div_lt_of_lt_mul
      rw [← hsplit]
      exact hv
    simp only [leBytes, leValue]
    rw [ih _ hv']
    omega

theorem unsigned_core (wb : Nat) (n : Int) (h0 : 0 ≤ n)
    (h1 : n < (2 : Int) ^ wb) :
    ((n % (2 : Int) ^ wb).toNat : Int) = n := by
  rw [Int.emod_eq_of_lt h0 h1, Int.toNat_of_nonneg h0]

theorem signed_core (wb : Nat) (n : Int) (hwb : 0 < wb)
    (h0 : -((2 : Int) ^ (wb - 1)) ≤ n) (h1 : n < (2 : Int) ^ (wb - 1)) :
    (if 2 ^ (wb - 1) ≤ (n % (2 : Int) ^ wb).toNat then
      ((n % (2 : Int) ^ wb).toNat : Int) - (2 : Int) ^ wb
     else ((n % (2 : Int) ^ wb).toNat : Int)) = n := by
  have hsplit : (2 : Int) ^ wb = 2 * (2 : Int) ^ (wb - 1) := by
    conv_lhs => rw [show wb = (wb - 1) + 1 by omega]
    rw [pow_succ]
    ring
  have hKpos : (0 : Int) < (2 : Int) ^ (wb - 1) := by positivity
  by_cases hn : 0 ≤ n
  · have hmod : n % (2 : Int) ^ wb = n :=
      Int.emod_eq_of_lt hn (by linarith)
    rw [hmod]
    have hcond : ¬ 2 ^ (wb - 1) ≤ n.toNat := by
      intro hc
      have hc' : (((2 : Nat) ^ (wb - 1) : Nat) : Int) ≤ (n.toNat : Int) := by
        exact_mod_cast hc
      rw [Int.toNat_of_nonneg hn] at hc'
      push_cast at hc'
      linarith
    rw [if_neg hcond, Int.toNat_of_nonneg hn]
  · push_neg at hn
    have hmod : n % (2 : Int) ^ wb = n + (2 : Int) ^ wb := by
      have h2 : (n + (2 : Int) ^ wb) % (2 : Int) ^ wb = n % (2 : Int) ^ wb := by
        conv_lhs => rw [show n + (2 : Int) ^ wb = n + ((2 : Int) ^ wb) * 1 by ring]
        exact Int.add_mul_emod_self_left n ((2 : Int) ^ wb) 1
      rw [← h2, Int.emod_eq_of_lt (by linarith) (by linarith)]
    rw [hmod]
    have hnonneg : 0 ≤ n + (2 : Int) ^ wb := by linarith
    have hcond : 2 ^ (wb - 1) ≤ (n + (2 : Int) ^ wb).toNat := by
      have hc' : (((2 : Nat) ^ (wb - 1) : Nat) : Int) ≤ ((n + (2 : Int) ^ wb).toNat : Int) := by
        rw [Int.toNat_of_nonneg hnonneg]
        push_cast
        linarith
      exact_mod_cast hc'
    rw [if_pos hcond, Int.toNat_of_nonneg hnonneg]
    ring

theorem fmtWidth_pos (code : FmtCode) : 0 < fmtWidth code := by
  cases code <;> simp [fmtWidth]

theorem sign_core (code : FmtCode) (n : Int) (h : inRangeP code n) :
    (if fmtSigned code then
      if 2 ^ (8 * fmtWidth code - 1) ≤ (n % (2 : Int) ^ (8 * fmtWidth code)).toNat then
        ((n % (2 : Int) ^ (8 * fmtWidth code)).toNat : Int) - (2 : Int) ^ (8 * fmtWidth code)
      else ((n % (2 : Int) ^ (8 * fmtWidth code)).toNat : Int)
     else ((n % (2 : Int) ^ (8 * fmtWidth code)).toNat : Int)) = n := by
  have hw : 0 < fmtWidth code := fmtWidth_pos code
  cases hs : fmtSigned code
  · have h' : 0 ≤ n ∧ n < (2 : Int) ^ (8 * fmtWidth code) := by
      have h2 := h
      simp only [inRangeP, packLo, packHi, hs, Bool.false_eq_true, if_false] at h2
      exact h2
    simp only [Bool.false_eq_true, if_false]
    exact unsigned_core _ n h'.1 h'.2
  · have h' : -((2 : Int) ^ (8 * fmtWidth code - 1)) ≤ n ∧
        n < (2 : Int) ^ (8 * fmtWidth code - 1) := by
      have h2 := h
      simp only [inRangeP, packLo, packHi, hs, if_true] at h2
      exact h2
    simp only [if_true]
    exact signed_core (8 * fmtWidth code) n (by omega) h'.1 h'.2

theorem decode_pack (e : Int) (code : FmtCode) (n : Int)
    (he : e = LITTLE_ENDIAN ∨ e = BIG_ENDIAN) (h : inRangeP code n) :
    ∃ bs, pack (if e = LITTLE_ENDIAN then '<' else '>') code n = .ok bs ∧
      bs.length = fmtWidth code ∧ decode e code bs = n := by
  have hMpos : (0 : Int) < (2 : Int) ^ (8 * fmtWidth code) := by positivity
  have hmod0 : 0 ≤ n % (2 : Int) ^ (8 * fmtWidth code) :=
    Int.emod_nonneg n (ne_of_gt hMpos)
  have hmodlt : n % (2 : Int) ^ (8 * fmtWidth code) < (2 : Int) ^ (8 * fmtWidth code) :=
    Int.emod_lt_of_pos n hMpos
  have hult : (n % (2 : Int) ^ (8 * fmtWidth code)).toNat < 2 ^ (8 * fmtWidth code) := by
    have hc : (((n % (2 : Int) ^ (8 * fmtWidth code)).toNat : Nat) : Int) <
        (((2 : Nat) ^ (8 * fmtWidth code) : Nat) : Int) := by
      rw [Int.toNat_of_nonneg hmod0]
      push_cast
      exact hmodlt
    exact_mod_cast hc
  have hval : leValue (leBytes (fmtWidth code)
      (n % (2 : Int) ^ (8 * fmtWidth code)).toNat) =
      (n % (2 : Int) ^ (8 * fmtWidth code)).toNat :=
    leValue_leBytes _ _ hult
  rcases he with rfl | rfl
  · refine ⟨leBytes (fmtWidth code) (n % (2 : Int) ^ (8 * fmtWidth code)).toNat,
      ?_, leBytes_length _ _, ?_⟩
    · simp [pack, if_pos h]
    · simp only [decode, eq_self_iff_true, if_true, hval]
      exact sign_core code n h
  · refine ⟨(leBytes (fmtWidth code)
      (n % (2 : Int) ^ (8 * fmtWidth code)).toNat).reverse, ?_, ?_, ?_⟩
    · simp [pack, if_pos h, BIG_ENDIAN, LITTLE_ENDIAN]
    · simp [leBytes_length]
    · have hne : BIG_ENDIAN ≠ LITTLE_ENDIAN := by
        simp [BIG_ENDIAN, LITTLE_ENDIAN]
      simp only [decode, if_neg hne, List.reverse_reverse, hval]
      exact sign_core code n h

theorem pack_ok_length (ec : Char) (code : FmtCode) (n : Int) (bs : List Nat)
    (h : pack ec code n = .ok bs) : bs.length = fmtWidth code := by
  unfold pack at h
  split at h
  · injection h with h
    subst h
    split <;> simp [leBytes_length]
  · exact absurd h (by simp)

theorem numWrite_eq (code : FmtCode) (w : BinaryStreamWriter) (n : Int) :
    numWrite code w n =
      match pack w.endian code n with
      | .error err => .error err
      | .ok buf => w.fpWrite buf := by
  cases code <;> rfl

theorem fpWrite_fresh (e : Int) (buf : List Nat) :
    (freshWriter e).fpWrite buf =
      .ok ({ freshWriter e with
        fp := some { data := buf, pos := buf.length, closed := false } },
        buf.length) := by
  simp [freshWriter, BinaryStreamWriter.fpWrite, BinaryStreamWriter.open_stream,
    BinaryStreamWriter.init, FileHandle.write, writeAt]

/-! ## Claim theorems -/

/-- C1: for every supported width (1, 2, 4, and the 4-byte long), for both
little-endian and big-endian settings, and for every value in the full
representable range of that width/signedness, calling the corresponding
numeric write (`write_byte`, `write_ubyte`, `write_short`, `write_ushort`,
`write_int`, `write_uint`, `write_long`, `write_ulong`) on an open writer
succeeds returning the width, and decoding the produced bytes with the same
width, signedness and endianness yields the original value. -/
theorem C1_numeric_write_roundtrip (code : FmtCode) (e : Int) (n : Int)
    (he : e = LITTLE_ENDIAN ∨ e = BIG_ENDIAN) (h : inRangeP code n) :
    ∃ w2 bs, numWrite code (freshWriter e) n = .ok (w2, fmtWidth code) ∧
      fileData w2 = some bs ∧ bs.length = fmtWidth code ∧
      decode e code bs = n := by
  obtain ⟨bs, hpack, hlen, hdec⟩ := decode_pack e code n he h
  have hend : pack (freshWriter e).endian code n = .ok bs := hpack
  refine ⟨{ freshWriter e with
    fp := some { data := bs, pos := bs.length, closed := false } }, bs,
    ?_, rfl, hlen, hdec⟩
  rw [numWrite_eq, hend]
  show (freshWriter e).fpWrite bs = _
  rw [fpWrite_fresh, hlen]

/-- C1 witness: width 2 unsigned, little-endian, value 0x1234. -/
theorem C1_numeric_write_roundtrip_witness :
    ∃ w2 bs, numWrite .H (freshWriter LITTLE_ENDIAN) 0x1234 = .ok (w2, fmtWidth .H) ∧
      fileData w2 = some bs ∧ bs.length = fmtWidth .H ∧
      decode LITTLE_ENDIAN .H bs = 0x1234 :=
  C1_numeric_write_roundtrip .H LITTLE_ENDIAN 0x1234 (Or.inl rfl) (by decide)

/-- C2 counterexample: `close()` on an open writer succeeds but leaves the
sink handle non-null — `__fp` still holds the (now closed) file object, so
the claim "the sink handle is null" is false; the subsequent write fails
with the sink's closed-file error, not an InvalidState null-handle check. -/
theorem C2_close_counterexample :
    ∃ w2, (freshWriter LITTLE_ENDIAN).close = .ok w2 ∧ w2.fp ≠ none ∧
      w2.write [0] = .error .valueErrorClosedFile := by
  refine ⟨{ output_path := "output.bin",
            fp := some { data := [], pos := 0, closed := true },
            endian := '<' },
    rfl, ?_, rfl⟩
  simp

/-- C2 (amended): after `close()` on an open writer the handle is NOT null —
it still references the now-closed sink — and every subsequent write or
seek (and skip) call fails, with the closed-file error raised by the sink
rather than an InvalidState "stream not open" null-handle check. -/
theorem C2_close_behaviour (w : BinaryStreamWriter) (f : FileHandle)
    (hf : w.fp = some f) :
    ∃ w2, w.close = .ok w2 ∧ w2.fp = some { f with closed := true } ∧
      (∀ b, w2.write b = .error .valueErrorClosedFile) ∧
      (∀ off wh, w2.seek off wh = .error .valueErrorClosedFile) ∧
      (∀ c, w2.skip c = .error .valueErrorClosedFile) := by
  refine ⟨{ w with fp := some { f with closed := true } }, ?_, rfl, ?_, ?_, ?_⟩
  · simp [BinaryStreamWriter.close, hf, FileHandle.closeHandle]
  · intro b
    simp [BinaryStreamWriter.write, BinaryStreamWriter.fpWrite, FileHandle.write]
  · intro off wh
    simp [BinaryStreamWriter.seek, FileHandle.seek]
  · intro c
    simp [BinaryStreamWriter.skip, FileHandle.seek]

/-- C2 witness: concrete instance on a freshly opened little-endian writer. -/
theorem C2_close_behaviour_witness :
    ∃ w2, (freshWriter LITTLE_ENDIAN).close = .ok w2 ∧
      w2.fp = some { data := [], pos := 0, closed := true } ∧
      (∀ b, w2.write b = .error .valueErrorClosedFile) ∧
      (∀ off wh, w2.seek off wh = .error .valueErrorClosedFile) ∧
      (∀ c, w2.skip c = .error .valueErrorClosedFile) :=
  C2_close_behaviour (freshWriter LITTLE_ENDIAN)
    { data := [], pos := 0, closed := false } rfl

theorem write_ascii_string_fresh (e : Int) (s : List Nat) :
    (freshWriter e).write_ascii_string s =
      match encodeAscii s with
      | .error err => .error err
      | .ok b => (freshWriter e).fpWrite b := rfl

theorem write_ascii_fresh_error_iff (e : Int) (s : List Nat) :
    ((freshWriter e).write_ascii_string s = .error .unicodeEncodeError ↔
      encodeAscii s = .error .unicodeEncodeError) := by
  rw [write_ascii_string_fresh]
  cases hres : encodeAscii s with
  | error err => simp
  | ok b =>
    show (freshWriter e).fpWrite b = Except.error PyError.unicodeEncodeError ↔
      Except.ok b = Except.error PyError.unicodeEncodeError
    rw [fpWrite_fresh]
    simp

theorem encodeAscii_error_iff (s : List Nat) :
    encodeAscii s = .error .unicodeEncodeError ↔ ∃ c ∈ s, 127 < c := by
  unfold encodeAscii
  by_cases hall : s.all (fun c => decide (c ≤ 127)) = true
  · rw [if_pos hall]
    simp only [List.all_eq_true, decide_eq_true_eq] at hall
    constructor
    · intro hcontra
      exact absurd hcontra (by simp)
    · rintro ⟨c, hm, hgt⟩
      exact absurd (hall c hm) (by omega)
  · rw [if_neg hall]
    simp only [List.all_eq_true, decide_eq_true_eq] at hall
    push_neg at hall
    obtain ⟨c, hm, hgt⟩ := hall
    constructor
    · intro _
      exact ⟨c, hm, by omega⟩
    · intro _
      rfl

/-- C3: `write_ascii_string s` on an open writer fails with the encoding
error exactly when `s` contains a code point above 127 (no silent lossy
replacement); on "café" `write_ascii_string` fails while
`write_utf8_string` succeeds and writes the UTF-8 bytes `63 61 66 C3 A9`. -/
theorem C3_ascii_hard_failure (e : Int) (s : List Nat) :
    ((freshWriter e).write_ascii_string s = .error .unicodeEncodeError ↔
      ∃ c ∈ s, 127 < c) ∧
    (freshWriter e).write_ascii_string cafe = .error .unicodeEncodeError ∧
    ∃ w2, (freshWriter e).write_utf8_string cafe = .ok (w2, 5) ∧
      fileData w2 = some [0x63, 0x61, 0x66, 0xC3, 0xA9] :=
  ⟨(write_ascii_fresh_error_iff e s).trans (encodeAscii_error_iff s),
    rfl, ⟨_, rfl, rfl⟩⟩

/-- C4: on an open writer, `write_ushort 0x1234` writes exactly the bytes
`34 12` under little-endian and exactly `12 34` under big-endian, returning
count 2 in both cases. -/
theorem C4_ushort_byte_order :
    (∃ w2, (freshWriter LITTLE_ENDIAN).write_ushort 0x1234 = .ok (w2, 2) ∧
      fileData w2 = some [0x34, 0x12]) ∧
    (∃ w2, (freshWriter BIG_ENDIAN).write_ushort 0x1234 = .ok (w2, 2) ∧
      fileData w2 = some [0x12, 0x34]) :=
  ⟨⟨_, rfl, rfl⟩, ⟨_, rfl, rfl⟩⟩

/-- C5: for every ASCII string `s`, `write_ascii_nt_string s` writes the
ASCII bytes of `s` followed by exactly one 0x00 terminator (returning
length + 1); in particular `write_ascii_string "AB"` produces exactly
`41 42` and `write_ascii_nt_string "AB"` produces exactly `41 42 00`. -/
theorem C5_ascii_nt_terminator (e : Int) :
    (∀ s : List Nat, (∀ c ∈ s, c ≤ 127) →
      ∃ w2, (freshWriter e).write_ascii_nt_string s = .ok (w2, s.length + 1) ∧
        fileData w2 = some (s ++ [0])) ∧
    (∃ w2, (freshWriter e).write_ascii_string [0x41, 0x42] = .ok (w2, 2) ∧
      fileData w2 = some [0x41, 0x42]) ∧
    (∃ w2, (freshWriter e).write_ascii_nt_string [0x41, 0x42] = .ok (w2, 3) ∧
      fileData w2 = some [0x41, 0x42, 0x00]) := by
  refine ⟨?_, ⟨_, rfl, rfl⟩, ⟨_, rfl, rfl⟩⟩
  intro s hs
  have hall : s.all (fun c => decide (c ≤ 127)) = true := by
    rw [List.all_eq_true]
    intro c hm
    simpa using hs c hm
  have henc : encodeAscii s = .ok s := by
    unfold encodeAscii
    rw [if_pos hall]
  have hstep : (freshWriter e).write_ascii_nt_string s =
      (freshWriter e).fpWrite (s ++ [0]) := by
    show (match encodeAscii s with
      | Except.error err => Except.error err
      | Except.ok b => (freshWriter e).fpWrite (b ++ [0])) =
      (freshWriter e).fpWrite (s ++ [0])
    rw [henc]
  have hl : (s ++ [0]).length = s.length + 1 := by simp
  refine ⟨{ freshWriter e with
    fp := some { data := s ++ [0], pos := s.length + 1, closed := false } },
    ?_, rfl⟩
  rw [hstep, fpWrite_fresh, hl]

/-- C5 witness: the ASCII string "A" gets the single terminator byte. -/
theorem C5_ascii_nt_terminator_witness :
    ∃ w2, (freshWriter LITTLE_ENDIAN).write_ascii_nt_string [0x41] =
      .ok (w2, 2) ∧ fileData w2 = some [0x41, 0x00] :=
  (C5_ascii_nt_terminator LITTLE_ENDIAN).1 [0x41] (by decide)

theorem fpWrite_count (w : BinaryStreamWriter) (buf : List Nat)
    (w2 : BinaryStreamWriter) (c : Nat)
    (h : w.fpWrite buf = .ok (w2, c)) : c = buf.length := by
  unfold BinaryStreamWriter.fpWrite at h
  cases hfp : w.fp with
  | none =>
    simp only [hfp] at h
    exact absurd h (by simp)
  | some f =>
    simp only [hfp] at h
    unfold FileHandle.write at h
    by_cases hc : f.closed
    · rw [if_pos hc] at h
      exact absurd h (by simp)
    · rw [if_neg hc] at h
      simp only [Except.ok.injEq, Prod.mk.injEq] at h
      exact h.2.symm

theorem numWrite_ok_parts (code : FmtCode) (w : BinaryStreamWriter) (n : Int)
    (w2 : BinaryStreamWriter) (c : Nat)
    (h : numWrite code w n = .ok (w2, c)) :
    ∃ buf, pack w.endian code n = .ok buf ∧ buf.length = fmtWidth code ∧
      c = fmtWidth code := by
  rw [numWrite_eq] at h
  cases hp : pack w.endian code n with
  | error err =>
    simp only [hp] at h
    exact absurd h (by simp)
  | ok buf =>
    simp only [hp] at h
    have hlen := pack_ok_length _ _ _ _ hp
    have hcount : c = buf.length := fpWrite_count w buf w2 c h
    exact ⟨buf, rfl, hlen, hcount.trans hlen⟩

/-- C6: on success, every fixed-width numeric write (`write_byte` through
`write_ulong`, dispatched by `numWrite`) returns a byte count equal to the
declared width of its format code (1, 2, or 4). -/
theorem C6_count_equals_width (code : FmtCode) (w : BinaryStreamWriter)
    (n : Int) (w2 : BinaryStreamWriter) (c : Nat)
    (h : numWrite code w n = .ok (w2, c)) : c = fmtWidth code := by
  obtain ⟨buf, _, _, hc⟩ := numWrite_ok_parts code w n w2 c h
  exact hc

/-- C6 witness: a concrete successful `write_byte` returns count 1. -/
theorem C6_count_equals_width_witness : 1 = fmtWidth FmtCode.b :=
  C6_count_equals_width .b (freshWriter LITTLE_ENDIAN) 5
    { output_path := "output.bin",
      fp := some { data := [5], pos := 1, closed := false }, endian := '<' }
    1 rfl

theorem FileHandle.seek_cur_data (f : FileHandle) (off : Int)
    (f2 : FileHandle) (p : Int) (h : f.seek off SEEK_CURRENT = .ok (f2, p)) :
    f2.data = f.data := by
  unfold FileHandle.seek at h
  simp only [SEEK_CURRENT, SEEK_BEGINNING, SEEK_END] at h
  norm_num at h
  split at h
  · exact absurd h (by simp)
  · split at h
    · exact absurd h (by simp)
    · simp only [Except.ok.injEq, Prod.mk.injEq] at h
      rw [← h.1]

/-- C7: for every writer state and every count (positive or negative),
`skip count` is the very same computation as `seek count SEEK_CURRENT` —
identical result, hence identical cursor position — and a successful skip
leaves the sink contents untouched (no bytes written). -/
theorem C7_skip_is_seek_current (w : BinaryStreamWriter) (count : Int) :
    w.skip count = w.seek count SEEK_CURRENT ∧
    (∀ w2 p, w.skip count = .ok (w2, p) → fileData w2 = fileData w) := by
  refine ⟨rfl, ?_⟩
  intro w2 p h
  unfold BinaryStreamWriter.skip at h
  cases hfp : w.fp with
  | none =>
    simp only [hfp] at h
    exact absurd h (by simp)
  | some f =>
    simp only [hfp] at h
    cases hseek : f.seek count SEEK_CURRENT with
    | error err =>
      simp only [hseek] at h
      exact absurd h (by simp)
    | ok fp2 =>
      obtain ⟨f2, p2⟩ := fp2
      simp only [hseek] at h
      simp only [Except.ok.injEq, Prod.mk.injEq] at h
      rw [← h.1, fileData, fileData, hfp]
      simp [FileHandle.seek_cur_data f count f2 p2 hseek]

/-- C7 witness: skipping 3 bytes on a fresh writer repositions without
writing. -/
theorem C7_skip_is_seek_current_witness :
    fileData { output_path := "output.bin",
               fp := some { data := [], pos := 3, closed := false },
               endian := '<' } = fileData (freshWriter LITTLE_ENDIAN) :=
  (C7_skip_is_seek_current (freshWriter LITTLE_ENDIAN) 3).2 _ 3 rfl

theorem pack_width_one (code : FmtCode) (hcode : fmtWidth code = 1)
    (ec : Char) (n : Int) : pack ec code n = pack '<' code n := by
  unfold pack
  split
  · rw [hcode]
    simp [leBytes]
  · rfl

theorem obsResult_fpWrite_fresh (e1 e2 : Int) (buf : List Nat) :
    obsResult ((freshWriter e1).fpWrite buf) =
      obsResult ((freshWriter e2).fpWrite buf) := by
  rw [fpWrite_fresh, fpWrite_fresh]
  rfl

/-- C8: for the single-byte operations `write_byte` and `write_ubyte`, the
bytes written and the returned count are identical for a writer constructed
little-endian and one constructed big-endian, for every in-range value. -/
theorem C8_single_byte_endian_irrelevant (n : Int) :
    (-128 ≤ n → n < 128 →
      obsResult ((freshWriter LITTLE_ENDIAN).write_byte n) =
        obsResult ((freshWriter BIG_ENDIAN).write_byte n)) ∧
    (0 ≤ n → n < 256 →
      obsResult ((freshWriter LITTLE_ENDIAN).write_ubyte n) =
        obsResult ((freshWriter BIG_ENDIAN).write_ubyte n)) := by
  constructor
  · intro _ _
    show obsResult (match pack '<' FmtCode.b n with
      | Except.error err => Except.error err
      | Except.ok buf => (freshWriter LITTLE_ENDIAN).fpWrite buf) =
      obsResult (match pack '>' FmtCode.b n with
      | Except.error err => Except.error err
      | Except.ok buf => (freshWriter BIG_ENDIAN).fpWrite buf)
    rw [pack_width_one FmtCode.b rfl '>' n]
    cases hp : pack '<' FmtCode.b n with
    | error err => rfl
    | ok buf =>
      show obsResult ((freshWriter LITTLE_ENDIAN).fpWrite buf) =
        obsResult ((freshWriter BIG_ENDIAN).fpWrite buf)
      exact obsResult_fpWrite_fresh LITTLE_ENDIAN BIG_ENDIAN buf
  · intro _ _
    show obsResult (match pack '<' FmtCode.B n with
      | Except.error err => Except.error err
      | Except.ok buf => (freshWriter LITTLE_ENDIAN).fpWrite buf) =
      obsResult (match pack '>' FmtCode.B n with
      | Except.error err => Except.error err
      | Except.ok buf => (freshWriter BIG_ENDIAN).fpWrite buf)
    rw [pack_width_one FmtCode.B rfl '>' n]
    cases hp : pack '<' FmtCode.B n with
    | error err => rfl
    | ok buf =>
      show obsResult ((freshWriter LITTLE_ENDIAN).fpWrite buf) =
        obsResult ((freshWriter BIG_ENDIAN).fpWrite buf)
      exact obsResult_fpWrite_fresh LITTLE_ENDIAN BIG_ENDIAN buf

/-- C8 witness: concrete in-range values 5 (signed) and 200 (unsigned). -/
theorem C8_single_byte_endian_irrelevant_witness :
    obsResult ((freshWriter LITTLE_ENDIAN).write_byte 5) =
      obsResult ((freshWriter BIG_ENDIAN).write_byte 5) ∧
    obsResult ((freshWriter LITTLE_ENDIAN).write_ubyte 200) =
      obsResult ((freshWriter BIG_ENDIAN).write_ubyte 200) :=
  ⟨(C8_single_byte_endian_irrelevant 5).1 (by norm_num) (by norm_num),
   (C8_single_byte_endian_irrelevant 200).2 (by norm_num) (by norm_num)⟩

/-- C9: `write_long` and `write_ulong` always write exactly 4 bytes: the
packed buffer produced by the byte-order-prefixed `l`/`L` format has length
4 (the standard size, independent of any platform long width), and every
successful call returns count 4. -/
theorem C9_long_writes_four_bytes (w : BinaryStreamWriter) (n : Int)
    (w2 : BinaryStreamWriter) (c : Nat) :
    (w.write_long n = .ok (w2, c) →
      c = 4 ∧ ∃ buf, pack w.endian .l n = .ok buf ∧ buf.length = 4) ∧
    (w.write_ulong n = .ok (w2, c) →
      c = 4 ∧ ∃ buf, pack w.endian .L n = .ok buf ∧ buf.length = 4) := by
  constructor
  · intro h
    obtain ⟨buf, hp, hlen, hc⟩ := numWrite_ok_parts .l w n w2 c h
    exact ⟨hc, buf, hp, hlen⟩
  · intro h
    obtain ⟨buf, hp, hlen, hc⟩ := numWrite_ok_parts .L w n w2 c h
    exact ⟨hc, buf, hp, hlen⟩

/-- C9 witness: `write_long 7` on a fresh little-endian writer. -/
theorem C9_long_writes_four_bytes_witness :
    (4 : Nat) = 4 ∧ ∃ buf,
      pack (freshWriter LITTLE_ENDIAN).endian .l 7 = .ok buf ∧
      buf.length = 4 :=
  (C9_long_writes_four_bytes (freshWriter LITTLE_ENDIAN) 7
    { output_path := "output.bin",
      fp := some { data := [7, 0, 0, 0], pos := 4, closed := false },
      endian := '<' } 4).1 rfl

/-- C10: the constructor performs no validation of the endianness argument:
every value other than LITTLE_ENDIAN (0) — any integer — produces exactly
the writer that BIG_ENDIAN produces, its endian character is the
big-endian one, and subsequent multi-byte writes use big-endian byte order
(`write_ushort 0x1234` emits `12 34`). -/
theorem C10_nonzero_endian_is_big (p : String) (e : Int)
    (he : e ≠ LITTLE_ENDIAN) :
    BinaryStreamWriter.init p e = BinaryStreamWriter.init p BIG_ENDIAN ∧
    (BinaryStreamWriter.init p e).endian = '>' ∧
    ∃ w2, ((BinaryStreamWriter.init p e).open_stream).write_ushort 0x1234 =
      .ok (w2, 2) ∧ fileData w2 = some [0x12, 0x34] := by
  have hch : (BinaryStreamWriter.init p e).endian = '>' := by
    show (if e = LITTLE_ENDIAN then '<' else '>') = '>'
    rw [if_neg he]
  have heq : BinaryStreamWriter.init p e = BinaryStreamWriter.init p BIG_ENDIAN := by
    unfold BinaryStreamWriter.init
    rw [if_neg he]
    norm_num [BIG_ENDIAN, LITTLE_ENDIAN]
  refine ⟨heq, hch, ?_⟩
  rw [heq]
  exact ⟨_, rfl, rfl⟩

/-- C10 witness: the arbitrary endianness argument 7 selects big-endian. -/
theorem C10_nonzero_endian_is_big_witness :
    BinaryStreamWriter.init "out.bin" 7 =
      BinaryStreamWriter.init "out.bin" BIG_ENDIAN ∧
    (BinaryStreamWriter.init "out.bin" 7).endian = '>' ∧
    ∃ w2, ((BinaryStreamWriter.init "out.bin" 7).open_stream).write_ushort
      0x1234 = .ok (w2, 2) ∧ fileData w2 = some [0x12, 0x34] :=
  C10_nonzero_endian_is_big "out.bin" 7 (by norm_num [LITTLE_ENDIAN])
